import Mathlib

/-!
Verification of the tiles-proxy-cache terrain raster core.

Shallow embedding of the three native extensions of the repository:

* `src/ext/terrain_downsample_extension.cpp` — terrain pixel codec
  (Mapbox Terrain-RGB / Terrarium) and the PNG downsampler;
* `src/ext/lerc_extension.cpp` — the C++ LERC→Mapbox-PNG pipeline;
* `src/ext/lerc_extension.c`  — the C LERC→Mapbox-PNG pipeline.

Modelling conventions:

* C `float`/`double` arithmetic is modelled by exact rational arithmetic
  (`ℚ`); the constants 10000.0, 0.1, 32768.0 … are the exact rationals the
  source spells.
* `std::round` (round half away from zero) is modelled by `cround`;
  a C cast from a floating value to `int32_t` (truncation toward zero) by
  `ctrunc`; `std::clamp` by `cclamp`.
* Casting an out-of-range floating value to `uint8_t` follows the
  twos-complement truncation the compiled code performs (`Int.emod 256`);
  an arithmetic right shift `>> 8` on `int32_t` is floor division
  (`Int.fdiv 256`), and `& 0xFF` is `Int.emod 256`.
* The external collaborators (libpng / stb PNG container codec, the LERC
  decompressor `lerc_getBlobInfo` / `lerc_decode`) are passed in as oracle
  arguments (`Option` values: `none` models the collaborator reporting
  failure).  The PNG container *encode* step is kept abstract: results carry
  the raw RGB raster plus dimensions instead of container bytes.
* Reads through raw pointers are modelled by `List.getD _ _ 0`; buffers are
  `List ℕ` of byte values.
* Each Ruby `rb_raise` site becomes a constructor of an error type, and the
  second component of the returned pair records whether the respective expensive
  decode collaborator (`lerc_decode` resp. `decompress_png_to_rgb`) was
  invoked before the function finished.
-/

/-- C `std::round`: round half away from zero, as an integer result. -/
def cround (q : ℚ) : ℤ := if 0 ≤ q then ⌊q + 1/2⌋ else ⌈q - 1/2⌉

/-- C cast of a floating value to a signed integer: truncation toward zero. -/
def ctrunc (q : ℚ) : ℤ := if 0 ≤ q then ⌊q⌋ else ⌈q⌉

/-- C++ `std::clamp(v, lo, hi)` (also the two sequential `if`s of
`lerc_extension.c` lines 62-63, which agree with it for `lo ≤ hi`). -/
def cclamp (v lo hi : ℤ) : ℤ := if v < lo then lo else if hi < v then hi else v

/-- Pack a (clamped, hence non-negative) 24-bit code into the byte triple
`(code >> 16 & 0xFF, code >> 8 & 0xFF, code & 0xFF)`. -/
def pack24 (code : ℤ) : ℕ × ℕ × ℕ :=
  (code.toNat / 65536 % 256, code.toNat / 256 % 256, code.toNat % 256)

/-- Model of `decode_mapbox_terrain_rgb` of terrain_downsample_extension.cpp lines 24-26:
`-10000.0 + ((r*256*256) + (g*256) + b) * 0.1`. -/
def decode_mapbox_terrain_rgb (r g b : ℕ) : ℚ :=
  -10000 + ((r : ℚ) * 256 * 256 + (g : ℚ) * 256 + (b : ℚ)) * (1/10)

/-- Model of `decode_terrarium` of terrain_downsample_extension.cpp lines 28-30:
`(r*256 + g + b/256.0) - 32768.0`. -/
def decode_terrarium (r g b : ℕ) : ℚ :=
  ((r : ℚ) * 256 + (g : ℚ) + (b : ℚ) / 256) - 32768

/-- Model of `encode_mapbox_terrain_rgb` of terrain_downsample_extension.cpp lines 32-40:
`code = clamp(int32(round((elevation + 10000.0) / 0.1)), 0, 16777215)`,
packed big-endian. -/
def encode_mapbox_terrain_rgb (elevation : ℚ) : ℕ × ℕ × ℕ :=
  pack24 (cclamp (cround ((elevation + 10000) / (1/10))) 0 16777215)

/-- The Mapbox encoder embedded in both LERC pipelines
(lerc_extension.cpp lines 73-78 and lerc_extension.c lines 61-67): identical
to `encode_mapbox_terrain_rgb` except that the floating quotient is *cast*
to `int32_t` (truncation toward zero) with no `round` call. -/
def encode_mapbox_trunc (elevation : ℚ) : ℕ × ℕ × ℕ :=
  pack24 (cclamp (ctrunc ((elevation + 10000) / (1/10))) 0 16777215)

/-- Model of `encode_terrarium` of terrain_downsample_extension.cpp lines 42-50:
`value = elevation + 32768.0; H = floor(value); F = value - H;
r = (int32(H) >> 8) & 0xFF; g = int32(H) & 0xFF; b = uint8(round(F*256.0))`.
The `b` byte keeps the twos-complement wrap of the compiled `uint8_t`
conversion when `round(F*256)` is 256. -/
def encode_terrarium (elevation : ℚ) : ℕ × ℕ × ℕ :=
  let value : ℚ := elevation + 32768
  let Hi : ℤ := ⌊value⌋
  let F : ℚ := value - (Hi : ℚ)
  (((Hi.fdiv 256).emod 256).toNat, (Hi.emod 256).toNat,
    ((cround (F * 256)).emod 256).toNat)

/-- The Mapbox Terrain-RGB encoding as the specification words it
(for comparison with the source encoders): `code = round((e + 10000.0)/0.1)`
clamped to `[0, 16777215]`, packed big-endian. -/
def spec_mapbox_encode (elevation : ℚ) : ℕ × ℕ × ℕ :=
  pack24 (cclamp (round ((elevation + 10000) / (1/10))) 0 16777215)

/-- The 24-bit code a packed byte triple denotes (big-endian). -/
def mapboxCode (p : ℕ × ℕ × ℕ) : ℕ := p.1 * 65536 + p.2.1 * 256 + p.2.2

/-- A byte triple as the 3-byte list the rasters store. -/
def pixelBytes (p : ℕ × ℕ × ℕ) : List ℕ := [p.1, p.2.1, p.2.2]

/-- Byte read through a raw pointer: `buf[idx]`. -/
def px (buf : List ℕ) (idx : ℕ) : ℕ := buf.getD idx 0

/-- Model of `DownsampleMethod` enum of terrain_downsample_extension.cpp lines 18-22. -/
inductive DownsampleMethod
  | Average
  | Nearest
  | Maximum
deriving DecidableEq

/-- Model of `decode_elevation` of terrain_downsample_extension.cpp lines 103-107. -/
def decode_elevation (input : List ℕ) (idx : ℕ) (is_terrarium : Bool) : ℚ :=
  if is_terrarium then decode_terrarium (px input idx) (px input (idx+1)) (px input (idx+2))
  else decode_mapbox_terrain_rgb (px input idx) (px input (idx+1)) (px input (idx+2))

/-- Model of `downsample_nearest` of terrain_downsample_extension.cpp lines 110-117:
copy the three bytes at `(src_y*source_width + src_x)*3`. -/
def downsample_nearest (input : List ℕ) (source_width src_x src_y : ℕ) : ℕ × ℕ × ℕ :=
  let idx := (src_y * source_width + src_x) * 3
  (px input idx, px input (idx+1), px input (idx+2))

/-- The four byte-triple base offsets the Average/Maximum methods read
(`idx00`, `idx10`, `idx01`, `idx11` of terrain_downsample_extension.cpp
lines 123-126 and 146-149). -/
def downsample_read_offsets (source_width src_x src_y : ℕ) : List ℕ :=
  [(src_y * source_width + src_x) * 3,
   (src_y * source_width + (src_x + 1)) * 3,
   ((src_y + 1) * source_width + src_x) * 3,
   ((src_y + 1) * source_width + (src_x + 1)) * 3]

/-- Model of `downsample_average` of terrain_downsample_extension.cpp lines 120-140. -/
def downsample_average (input : List ℕ) (source_width src_x src_y : ℕ)
    (is_terrarium : Bool) : ℕ × ℕ × ℕ :=
  let idx00 := (src_y * source_width + src_x) * 3
  let idx10 := (src_y * source_width + (src_x + 1)) * 3
  let idx01 := ((src_y + 1) * source_width + src_x) * 3
  let idx11 := ((src_y + 1) * source_width + (src_x + 1)) * 3
  let e00 := decode_elevation input idx00 is_terrarium
  let e10 := decode_elevation input idx10 is_terrarium
  let e01 := decode_elevation input idx01 is_terrarium
  let e11 := decode_elevation input idx11 is_terrarium
  let avg_elevation := (e00 + e10 + e01 + e11) * (1/4)
  if is_terrarium then encode_terrarium avg_elevation
  else encode_mapbox_terrain_rgb avg_elevation

/-- Model of `downsample_maximum` of terrain_downsample_extension.cpp lines 143-163. -/
def downsample_maximum (input : List ℕ) (source_width src_x src_y : ℕ)
    (is_terrarium : Bool) : ℕ × ℕ × ℕ :=
  let idx00 := (src_y * source_width + src_x) * 3
  let idx10 := (src_y * source_width + (src_x + 1)) * 3
  let idx01 := ((src_y + 1) * source_width + src_x) * 3
  let idx11 := ((src_y + 1) * source_width + (src_x + 1)) * 3
  let e00 := decode_elevation input idx00 is_terrarium
  let e10 := decode_elevation input idx10 is_terrarium
  let e01 := decode_elevation input idx01 is_terrarium
  let e11 := decode_elevation input idx11 is_terrarium
  let max_elevation := max (max (max e00 e10) e01) e11
  if is_terrarium then encode_terrarium max_elevation
  else encode_mapbox_terrain_rgb max_elevation

/-- The `switch (downsample_method)` dispatch of the per-pixel loop body
(terrain_downsample_extension.cpp lines 225-237). -/
def downsample_pixel (input : List ℕ) (source_width src_x src_y : ℕ)
    (is_terrarium : Bool) : DownsampleMethod → ℕ × ℕ × ℕ
  | .Nearest => downsample_nearest input source_width src_x src_y
  | .Average => downsample_average input source_width src_x src_y is_terrarium
  | .Maximum => downsample_maximum input source_width src_x src_y is_terrarium

/-- The output-raster double loop of terrain_downsample_extension.cpp
lines 218-243: for each `(out_y, out_x)` in row-major order, sample at
`(out_x*scale_factor, out_y*scale_factor)` and append three bytes. -/
def downsample_core (input : List ℕ) (source_width scale_factor target_size : ℕ)
    (is_terrarium : Bool) (m : DownsampleMethod) : List ℕ :=
  (List.range target_size).flatMap fun out_y =>
    (List.range target_size).flatMap fun out_x =>
      pixelBytes (downsample_pixel input source_width
        (out_x * scale_factor) (out_y * scale_factor) is_terrarium m)

/-- The `rb_raise` sites of `downsample_png`
(terrain_downsample_extension.cpp lines 165-252): all five are `ArgError`
or `RuntimeError` raises; the spec taxonomy calls the middle three
`ValidationError` and the last one a container error. -/
inductive DsErr
  | emptyData
  | badTargetSize
  | badScheme
  | badMethod
  | pngReadFailed
deriving DecidableEq

/-- Result of `downsample_png`: either the unmodified input container bytes
(the fast path `return png_data;` of line 208) or a freshly built raster
(handed to `create_png_from_rgb`, kept abstract). -/
inductive DsOut
  | original (data : List ℕ)
  | resampled (w h : ℕ) (rgb : List ℕ)
deriving DecidableEq

/-- The `method_str` dispatch of terrain_downsample_extension.cpp
lines 192-201. -/
def parse_method (s : String) : Option DownsampleMethod :=
  if s = "average" then some .Average
  else if s = "nearest" then some .Nearest
  else if s = "maximum" then some .Maximum
  else none

/-- Model of `downsample_png` of terrain_downsample_extension.cpp lines 165-252.
`pngDecode` is the `decompress_png_to_rgb` collaborator oracle
(`none` = libpng read/format failure); the boolean of the result records
whether that collaborator was invoked. -/
def downsample_png (png_data : List ℕ) (target_size : ℤ)
    (encoding_type method_str : String)
    (pngDecode : Option (ℕ × ℕ × List ℕ)) : Except DsErr DsOut × Bool :=
  if png_data = [] then (.error .emptyData, false)
  else if target_size ≤ 0 ∨ 1024 < target_size then (.error .badTargetSize, false)
  else
    let is_terrarium : Bool := encoding_type = "terrarium"
    if is_terrarium = false ∧ encoding_type ≠ "mapbox" then (.error .badScheme, false)
    else
      match parse_method method_str with
      | none => (.error .badMethod, false)
      | some m =>
        match pngDecode with
        | none => (.error .pngReadFailed, true)
        | some (source_width, source_height, rgb_data) =>
          let t := target_size.toNat
          if source_width ≤ t ∧ source_height ≤ t then (.ok (.original png_data), true)
          else
            let scale_factor := source_width / t
            (.ok (.resampled t t
              (downsample_core rgb_data source_width scale_factor t is_terrarium m)), true)

/-- Length of the raster a resampling run produced (0 on every other outcome). -/
def dsLen : Except DsErr DsOut × Bool → ℕ
  | (.ok (.resampled _ _ d), _) => d.length
  | _ => 0

/-- Byte `i` of the raster a resampling run produced (0 on every other outcome). -/
def dsByte : Except DsErr DsOut × Bool → ℕ → ℕ
  | (.ok (.resampled _ _ d), _), i => d.getD i 0
  | _, _ => 0

/-- Whether a run took the resampling path. -/
def dsIsResampled : Except DsErr DsOut × Bool → Bool
  | (.ok (.resampled _ _ _), _) => true
  | _ => false

/-- The metadata `lerc_getBlobInfo` reports: `info[1]` (data type),
`info[3]` (columns), `info[4]` (rows), `info[5]` (bands), `info[6]`
(valid-pixel count), each read back as a C `int`. -/
structure BlobInfo where
  dataType : ℤ
  nCols : ℤ
  nRows : ℤ
  nBands : ℤ
  nValidPixels : ℤ
deriving DecidableEq

/-- The `rb_raise` sites of the two LERC pipelines: empty blob,
`lerc_getBlobInfo` non-success, non-positive dimensions, non-float data
type, `lerc_decode` non-success, and (C pipeline only) the
`elevation_to_mapbox_c` non-zero return. -/
inductive LercErr
  | emptyBlob
  | infoFailed
  | badDims
  | badType
  | decodeFailed
  | convFailed
deriving DecidableEq

/-- Result of a LERC pipeline run: `Qnil` for an all-masked raster
(the explicit no-data result), or the Mapbox-encoded raster handed to the
PNG container encoder (kept abstract: dimensions plus raw RGB bytes). -/
inductive LercResult
  | noData
  | png (w h : ℕ) (rgb : List ℕ)
deriving DecidableEq

/-- Three bytes of the pipeline Mapbox encoder, as stored (`*rgb_ptr++ = r;
g; b` resp. `rgb_data[rgb_idx*3 ..]`). -/
def mapbox_trunc_bytes (e : ℚ) : List ℕ := pixelBytes (encode_mapbox_trunc e)

/-- The elevation-to-RGB double loop shared verbatim by
lerc_extension.cpp lines 69-80 and lerc_extension.c lines 56-70: for each
output `(y, x)` in row-major order, encode `elev[y*src_width + x]` — the
row stride stays the *source* column count, which is what drops the last
row/column when the target dimensions are cropped. -/
def lerc_rgb (elev : List ℚ) (src_width tw th : ℕ) : List ℕ :=
  (List.range th).flatMap fun y =>
    (List.range tw).flatMap fun x =>
      mapbox_trunc_bytes (elev.getD (y * src_width + x) 0)

/-- Model of `lerc_to_mapbox_png` of lerc_extension.cpp lines 13-94.
`blobLen` is `RSTRING_LEN(lerc_data)`; `blobInfo` the `lerc_getBlobInfo`
oracle (`none` = non-success status); `decodeResult` the `lerc_decode`
oracle (`none` = non-success status).  The boolean records whether
`lerc_decode` was invoked. -/
def lerc_to_mapbox_png (blobLen : ℕ) (blobInfo : Option BlobInfo)
    (decodeResult : Option (List ℚ)) : Except LercErr LercResult × Bool :=
  if blobLen = 0 then (.error .emptyBlob, false)
  else match blobInfo with
  | none => (.error .infoFailed, false)
  | some info =>
    if info.nCols ≤ 0 ∨ info.nRows ≤ 0 ∨ info.nBands ≤ 0 then (.error .badDims, false)
    else if info.dataType ≠ 6 then (.error .badType, false)
    else if info.nValidPixels ≤ 0 then (.ok .noData, false)
    else match decodeResult with
      | none => (.error .decodeFailed, true)
      | some elev =>
        let tw := (if info.nCols = 257 then 256 else info.nCols).toNat
        let th := (if info.nRows = 257 then 256 else info.nRows).toNat
        (.ok (.png tw th (lerc_rgb elev info.nCols.toNat tw th)), true)

/-- Model of `elevation_to_mapbox_c` of lerc_extension.c lines 51-72: returns -1
(modelled `none`) when `target_count ≤ 0`, otherwise fills the RGB buffer
with the same double loop as the C++ pipeline.  (The null-pointer guards
have no counterpart in the model: the buffers always exist here.) -/
def elevation_to_mapbox_c (elev : List ℚ) (target_count : ℤ)
    (src_width tw th : ℕ) : Option (List ℕ) :=
  if target_count ≤ 0 then none
  else some (lerc_rgb elev src_width tw th)

/-- Model of `lerc_to_mapbox_png_c` of lerc_extension.c lines 89-160.  Same oracles
as the C++ pipeline.  Note the C pipeline performs no valid-pixel check:
`info[6]` is never read. -/
def lerc_to_mapbox_png_c (blobLen : ℕ) (blobInfo : Option BlobInfo)
    (decodeResult : Option (List ℚ)) : Except LercErr LercResult × Bool :=
  if blobLen = 0 then (.error .emptyBlob, false)
  else match blobInfo with
  | none => (.error .infoFailed, false)
  | some info =>
    if info.nCols ≤ 0 ∨ info.nRows ≤ 0 ∨ info.nBands ≤ 0 then (.error .badDims, false)
    else if info.dataType ≠ 6 then (.error .badType, false)
    else match decodeResult with
      | none => (.error .decodeFailed, true)
      | some elev =>
        let tw := (if info.nCols = 257 then 256 else info.nCols).toNat
        let th := (if info.nRows = 257 then 256 else info.nRows).toNat
        match elevation_to_mapbox_c elev ((tw : ℤ) * (th : ℤ)) info.nCols.toNat tw th with
        | none => (.error .convFailed, true)
        | some rgb => (.ok (.png tw th rgb), true)

/-- Output width of a LERC pipeline run (0 unless a raster was produced). -/
def lercW : Except LercErr LercResult × Bool → ℕ
  | (.ok (.png w _ _), _) => w
  | _ => 0

/-- Output height of a LERC pipeline run (0 unless a raster was produced). -/
def lercH : Except LercErr LercResult × Bool → ℕ
  | (.ok (.png _ h _), _) => h
  | _ => 0

/-- Output raster byte length of a LERC pipeline run. -/
def lercLen : Except LercErr LercResult × Bool → ℕ
  | (.ok (.png _ _ d), _) => d.length
  | _ => 0

/-- Byte `i` of the raster a LERC pipeline run produced. -/
def lercByte : Except LercErr LercResult × Bool → ℕ → ℕ
  | (.ok (.png _ _ d), _), i => d.getD i 0
  | _, _ => 0

theorem pixelBytes_length (p : ℕ × ℕ × ℕ) : (pixelBytes p).length = 3 := rfl

theorem flatMap_range_length (f : ℕ → List ℕ) (k : ℕ) (hf : ∀ i, (f i).length = k) :
    ∀ n, ((List.range n).flatMap f).length = n * k := by
  intro n
  induction n with
  | zero => simp
  | succ m ih =>
    rw [List.range_succ, List.flatMap_append, List.length_append, ih]
    simp [hf, Nat.succ_mul]

theorem flatMap_range_getD (f : ℕ → List ℕ) (k : ℕ) (hf : ∀ i, (f i).length = k) :
    ∀ n j c, j < n → c < k →
      ((List.range n).flatMap f).getD (j * k + c) 0 = (f j).getD c 0 := by
  intro n
  induction n with
  | zero => omega
  | succ m ih =>
    intro j c hj hc
    rw [List.range_succ, List.flatMap_append]
    rcases Nat.lt_or_ge j m with h | h
    · rw [List.getD_append]
      · exact ih j c h hc
      · rw [flatMap_range_length f k hf m]
        calc j * k + c < j * k + k := by omega
          _ = (j + 1) * k := by ring
          _ ≤ m * k := Nat.mul_le_mul_right k (by omega)
    · have hjm : j = m := by omega
      subst hjm
      rw [List.getD_append_right]
      · rw [flatMap_range_length f k hf j]
        simp [Nat.add_sub_cancel_left]
      · rw [flatMap_range_length f k hf j]; omega

theorem cclamp_nonneg (v hi : ℤ) (h : 0 ≤ hi) : 0 ≤ cclamp v 0 hi := by
  unfold cclamp; split <;> [omega; skip]; split <;> omega

theorem cclamp_le (v hi : ℤ) (h : 0 ≤ hi) : cclamp v 0 hi ≤ hi := by
  unfold cclamp; split <;> [omega; skip]; split <;> omega

theorem cclamp_of_mem (v hi : ℤ) (h0 : 0 ≤ v) (h1 : v ≤ hi) : cclamp v 0 hi = v := by
  unfold cclamp; split <;> [omega; skip]; split <;> omega

theorem cclamp_of_nonpos (v hi : ℤ) (h0 : v ≤ 0) (h : 0 ≤ hi) : cclamp v 0 hi = 0 := by
  unfold cclamp; split_ifs <;> omega

theorem cclamp_mono (v v2 hi : ℤ) (hhi : 0 ≤ hi) (h : v ≤ v2) : cclamp v 0 hi ≤ cclamp v2 0 hi := by
  unfold cclamp; split_ifs <;> omega

theorem pack24_bytes_lt (code : ℤ) :
    (pack24 code).1 < 256 ∧ (pack24 code).2.1 < 256 ∧ (pack24 code).2.2 < 256 := by
  unfold pack24
  refine ⟨?_, ?_, ?_⟩ <;> exact Nat.mod_lt _ (by omega)

theorem mapboxCode_pack24 (code : ℤ) (h0 : 0 ≤ code) (h1 : code < 16777216) :
    mapboxCode (pack24 code) = code.toNat := by
  unfold mapboxCode pack24
  have h2 : code.toNat < 16777216 := by omega
  simp only
  omega

theorem cround_bounds (q : ℚ) : q - 1/2 ≤ (cround q : ℚ) ∧ (cround q : ℚ) ≤ q + 1/2 := by
  unfold cround
  split
  · constructor
    · have h1 : (q + 1/2) - 1 < (⌊q + 1/2⌋ : ℚ) := by
        have := Int.sub_one_lt_floor (q + 1/2)
        linarith
      linarith
    · exact Int.floor_le _
  · constructor
    · have := Int.le_ceil (q - 1/2)
      linarith
    · have h1 : (⌈q - 1/2⌉ : ℚ) < (q - 1/2) + 1 := Int.ceil_lt_add_one _
      linarith

theorem cround_nonneg (q : ℚ) (h : 0 ≤ q) : 0 ≤ cround q := by
  unfold cround
  rw [if_pos h]
  exact Int.floor_nonneg.mpr (by linarith)

theorem cround_nonpos (q : ℚ) (h : q ≤ 0) : cround q ≤ 0 := by
  unfold cround
  split
  · have hq : q = 0 := le_antisymm h (by assumption)
    subst hq
    norm_num
  · exact Int.ceil_le.mpr (by push_cast; linarith)

theorem ctrunc_nonneg (q : ℚ) (h : 0 ≤ q) : 0 ≤ ctrunc q := by
  unfold ctrunc
  rw [if_pos h]
  exact Int.floor_nonneg.mpr h

theorem ctrunc_nonpos (q : ℚ) (h : q ≤ 0) : ctrunc q ≤ 0 := by
  unfold ctrunc
  split
  · have hq : q = 0 := le_antisymm h (by assumption)
    subst hq
    norm_num
  · exact Int.ceil_le.mpr (by push_cast; linarith)

theorem ctrunc_le_of_le (q : ℚ) (m : ℤ) (hq : 0 ≤ q) (h : (m : ℚ) ≤ q) : m ≤ ctrunc q := by
  unfold ctrunc
  rw [if_pos hq]
  exact Int.le_floor.mpr h

theorem parse_method_average : parse_method "average" = some .Average := rfl

theorem parse_method_nearest : parse_method "nearest" = some .Nearest := rfl

theorem parse_method_maximum : parse_method "maximum" = some .Maximum := rfl

theorem downsample_png_resample_run (d : List ℕ) (t : ℤ) (enc ms : String)
    (m : DownsampleMethod) (w h : ℕ) (src : List ℕ)
    (hd : d ≠ []) (ht1 : 0 < t) (ht2 : t ≤ 1024)
    (henc : enc = "mapbox" ∨ enc = "terrarium")
    (hm : parse_method ms = some m)
    (hfast : ¬ (w ≤ t.toNat ∧ h ≤ t.toNat)) :
    downsample_png d t enc ms (some (w, h, src)) =
      (.ok (.resampled t.toNat t.toNat
        (downsample_core src w (w / t.toNat) t.toNat (decide (enc = "terrarium")) m)), true) := by
  unfold downsample_png
  rw [if_neg hd, if_neg (by omega), hm]
  simp only
  rw [if_neg ?hscheme, if_neg hfast]
  case hscheme =>
    rcases henc with h | h <;> subst h <;> simp

theorem downsample_png_fast_run (d : List ℕ) (t : ℤ) (enc ms : String)
    (m : DownsampleMethod) (w h : ℕ) (src : List ℕ)
    (hd : d ≠ []) (ht1 : 0 < t) (ht2 : t ≤ 1024)
    (henc : enc = "mapbox" ∨ enc = "terrarium")
    (hm : parse_method ms = some m)
    (hw : w ≤ t.toNat) (hh : h ≤ t.toNat) :
    downsample_png d t enc ms (some (w, h, src)) = (.ok (.original d), true) := by
  unfold downsample_png
  rw [if_neg hd, if_neg (by omega), hm]
  simp only
  rw [if_neg ?hscheme, if_pos ⟨hw, hh⟩]
  case hscheme =>
    rcases henc with h | h <;> subst h <;> simp

theorem lerc_cpp_run (n : ℕ) (info : BlobInfo) (elev : List ℚ)
    (hn : n ≠ 0) (hc : 0 < info.nCols) (hr : 0 < info.nRows) (hb : 0 < info.nBands)
    (hT : info.dataType = 6) (hv : 0 < info.nValidPixels) :
    lerc_to_mapbox_png n (some info) (some elev) =
      (.ok (.png (if info.nCols = 257 then 256 else info.nCols).toNat
                 (if info.nRows = 257 then 256 else info.nRows).toNat
                 (lerc_rgb elev info.nCols.toNat
                   (if info.nCols = 257 then 256 else info.nCols).toNat
                   (if info.nRows = 257 then 256 else info.nRows).toNat)), true) := by
  unfold lerc_to_mapbox_png
  rw [if_neg hn]
  simp only
  rw [if_neg (by omega), if_neg (by omega), if_neg (by omega)]

theorem lerc_c_run (n : ℕ) (info : BlobInfo) (elev : List ℚ)
    (hn : n ≠ 0) (hc : 0 < info.nCols) (hr : 0 < info.nRows) (hb : 0 < info.nBands)
    (hT : info.dataType = 6) :
    lerc_to_mapbox_png_c n (some info) (some elev) =
      (.ok (.png (if info.nCols = 257 then 256 else info.nCols).toNat
                 (if info.nRows = 257 then 256 else info.nRows).toNat
                 (lerc_rgb elev info.nCols.toNat
                   (if info.nCols = 257 then 256 else info.nCols).toNat
                   (if info.nRows = 257 then 256 else info.nRows).toNat)), true) := by
  have htw : (0:ℤ) < (if info.nCols = 257 then 256 else info.nCols) := by
    split <;> omega
  have hth : (0:ℤ) < (if info.nRows = 257 then 256 else info.nRows) := by
    split <;> omega
  unfold lerc_to_mapbox_png_c
  rw [if_neg hn]
  simp only
  rw [if_neg (by omega), if_neg (by omega)]
  unfold elevation_to_mapbox_c
  rw [if_neg ?hcount]
  case hcount =>
    have h1 : (0:ℤ) < ((if info.nCols = 257 then 256 else info.nCols).toNat : ℤ) := by
      omega
    have h2 : (0:ℤ) < ((if info.nRows = 257 then 256 else info.nRows).toNat : ℤ) := by
      omega
    have h3 := mul_pos h1 h2
    omega

theorem downsample_core_length (input : List ℕ) (w s t : ℕ) (terr : Bool)
    (m : DownsampleMethod) : (downsample_core input w s t terr m).length = t * t * 3 := by
  unfold downsample_core
  rw [flatMap_range_length _ (t * 3) ?hrow t, Nat.mul_assoc]
  case hrow =>
    intro y
    exact flatMap_range_length _ 3 (fun i => pixelBytes_length _) t

theorem downsample_core_getD (input : List ℕ) (w s t : ℕ) (terr : Bool)
    (m : DownsampleMethod) (ox oy c : ℕ) (hox : ox < t) (hoy : oy < t) (hc : c < 3) :
    (downsample_core input w s t terr m).getD ((oy * t + ox) * 3 + c) 0 =
      (pixelBytes (downsample_pixel input w (ox * s) (oy * s) terr m)).getD c 0 := by
  unfold downsample_core
  have hrow : ∀ y, ((List.range t).flatMap fun ox2 =>
      pixelBytes (downsample_pixel input w (ox2 * s) (y * s) terr m)).length = t * 3 :=
    fun y => flatMap_range_length _ 3 (fun i => pixelBytes_length _) t
  have hidx : (oy * t + ox) * 3 + c = oy * (t * 3) + (ox * 3 + c) := by ring
  rw [hidx, flatMap_range_getD _ (t * 3) hrow t oy _ hoy (by nlinarith)]
  exact flatMap_range_getD _ 3 (fun i => pixelBytes_length _) t ox c hox hc

theorem lerc_rgb_length (elev : List ℚ) (sw tw th : ℕ) :
    (lerc_rgb elev sw tw th).length = tw * th * 3 := by
  unfold lerc_rgb
  rw [flatMap_range_length _ (tw * 3) ?hrow th]
  · ring
  case hrow =>
    intro y
    exact flatMap_range_length _ 3 (fun i => pixelBytes_length _) tw

theorem lerc_rgb_getD (elev : List ℚ) (sw tw th x y c : ℕ)
    (hx : x < tw) (hy : y < th) (hc : c < 3) :
    (lerc_rgb elev sw tw th).getD ((y * tw + x) * 3 + c) 0 =
      (mapbox_trunc_bytes (elev.getD (y * sw + x) 0)).getD c 0 := by
  unfold lerc_rgb
  have hrow : ∀ y2, ((List.range tw).flatMap fun x2 =>
      mapbox_trunc_bytes (elev.getD (y2 * sw + x2) 0)).length = tw * 3 :=
    fun y2 => flatMap_range_length _ 3 (fun i => pixelBytes_length _) tw
  have hidx : (y * tw + x) * 3 + c = y * (tw * 3) + (x * 3 + c) := by ring
  rw [hidx, flatMap_range_getD _ (tw * 3) hrow th y _ hy (by nlinarith)]
  exact flatMap_range_getD _ 3 (fun i => pixelBytes_length _) tw x c hx hc

/-- C8: a call to `downsample_png` with nonempty data and `target_size ≤ 0` or
`target_size > 1024` fails with the target-size validation error before the
container is decoded (the PNG-decode flag stays `false`, and the result does
not depend on the container-decode oracle); an unknown encoding scheme, or an
unknown method under a valid scheme, likewise fails with a validation error
before the container is decoded, never silently defaulting. -/
theorem C8_downsample_validation (d : List ℕ) (t : ℤ) (enc ms : String)
    (pd : Option (ℕ × ℕ × List ℕ)) (hd : d ≠ []) :
    ((t ≤ 0 ∨ 1024 < t) →
      downsample_png d t enc ms pd = (.error .badTargetSize, false))
  ∧ (0 < t → t ≤ 1024 → enc ≠ "mapbox" → enc ≠ "terrarium" →
      downsample_png d t enc ms pd = (.error .badScheme, false))
  ∧ (0 < t → t ≤ 1024 → (enc = "mapbox" ∨ enc = "terrarium") →
      parse_method ms = none →
      downsample_png d t enc ms pd = (.error .badMethod, false)) := by
  refine ⟨fun ht => ?_, fun ht1 ht2 hm hter => ?_, fun ht1 ht2 henc hms => ?_⟩
  · unfold downsample_png
    rw [if_neg hd, if_pos ht]
  · unfold downsample_png
    rw [if_neg hd, if_neg (by omega)]
    simp only
    rw [if_pos ⟨decide_eq_false hter, hm⟩]
  · unfold downsample_png
    rw [if_neg hd, if_neg (by omega)]
    simp only
    rw [if_neg ?hs, hms]
    case hs =>
      rcases henc with h | h <;> subst h <;> simp

/-- C8 witness: `target_size = 2000`, an unknown scheme, and an unknown
method each fail with the corresponding validation error with the container
never decoded. -/
theorem C8_downsample_validation_witness :
    downsample_png [1] 2000 "mapbox" "average" none = (.error .badTargetSize, false)
  ∧ downsample_png [1] 512 "quux" "average" none = (.error .badScheme, false)
  ∧ downsample_png [1] 512 "mapbox" "quux" none = (.error .badMethod, false) :=
  ⟨(C8_downsample_validation [1] 2000 "mapbox" "average" none (by simp)).1
      (by norm_num),
   (C8_downsample_validation [1] 512 "quux" "average" none (by simp)).2.1
      (by norm_num) (by norm_num) (by simp) (by simp),
   (C8_downsample_validation [1] 512 "mapbox" "quux" none (by simp)).2.2
      (by norm_num) (by norm_num) (Or.inl rfl) rfl⟩

/-- C9: both LERC pipeline entry points fail with the empty-blob error on a
zero-length blob, and — when the metadata parses with positive dimensions but
a data type other than float (type code 6) — fail with the unsupported-type
error without the decompressor being invoked and with no other output. -/
theorem C9_lerc_input_errors (n : ℕ) (oinfo : Option BlobInfo) (info : BlobInfo)
    (dec : Option (List ℚ)) :
    (lerc_to_mapbox_png 0 oinfo dec = (.error .emptyBlob, false)
      ∧ lerc_to_mapbox_png_c 0 oinfo dec = (.error .emptyBlob, false))
  ∧ (n ≠ 0 → 0 < info.nCols → 0 < info.nRows → 0 < info.nBands →
      info.dataType ≠ 6 →
      lerc_to_mapbox_png n (some info) dec = (.error .badType, false)
      ∧ lerc_to_mapbox_png_c n (some info) dec = (.error .badType, false)) := by
  refine ⟨⟨?_, ?_⟩, fun hn hc hr hb hT => ⟨?_, ?_⟩⟩
  · unfold lerc_to_mapbox_png
    rw [if_pos rfl]
  · unfold lerc_to_mapbox_png_c
    rw [if_pos rfl]
  · unfold lerc_to_mapbox_png
    rw [if_neg hn]
    simp only
    rw [if_neg (by omega), if_pos hT]
  · unfold lerc_to_mapbox_png_c
    rw [if_neg hn]
    simp only
    rw [if_neg (by omega), if_pos hT]

/-- C9 witness: the zero-length blob and a non-float metadata blob at
concrete inputs. -/
theorem C9_lerc_input_errors_witness :
    (lerc_to_mapbox_png 0 none none = (.error .emptyBlob, false)
      ∧ lerc_to_mapbox_png_c 0 none none = (.error .emptyBlob, false))
  ∧ (lerc_to_mapbox_png 5 (some ⟨1, 2, 2, 1, 4⟩) none = (.error .badType, false)
      ∧ lerc_to_mapbox_png_c 5 (some ⟨1, 2, 2, 1, 4⟩) none = (.error .badType, false)) :=
  ⟨(C9_lerc_input_errors 5 none ⟨1, 2, 2, 1, 4⟩ none).1,
   (C9_lerc_input_errors 5 (some ⟨1, 2, 2, 1, 4⟩) ⟨1, 2, 2, 1, 4⟩ none).2
      (by norm_num) (by norm_num) (by norm_num) (by norm_num) (by norm_num)⟩

/-- C3 (amended): on metadata with positive dimensions, float type and a
non-positive valid-pixel count, the C++ pipeline returns the explicit
no-data result with no error and without invoking the decompressor, while
the C pipeline performs no valid-pixel check and always invokes the
decompressor there. -/
theorem C3_lerc_novalid (n : ℕ) (info : BlobInfo) (dec : Option (List ℚ))
    (hn : n ≠ 0) (hc : 0 < info.nCols) (hr : 0 < info.nRows) (hb : 0 < info.nBands)
    (hT : info.dataType = 6) (hv : info.nValidPixels ≤ 0) :
    lerc_to_mapbox_png n (some info) dec = (.ok .noData, false)
  ∧ (lerc_to_mapbox_png_c n (some info) dec).2 = true := by
  constructor
  · unfold lerc_to_mapbox_png
    rw [if_neg hn]
    simp only
    rw [if_neg (by omega), if_neg (by omega), if_pos hv]
  · unfold lerc_to_mapbox_png_c
    rw [if_neg hn]
    simp only
    rw [if_neg (by omega), if_neg (by omega)]
    cases dec with
    | none => rfl
    | some elev =>
      simp only
      rcases h : elevation_to_mapbox_c elev _ info.nCols.toNat _ _ with _ | rgb <;>
        simp [h]

/-- C3 witness: a concrete all-masked metadata blob. -/
theorem C3_lerc_novalid_witness :
    lerc_to_mapbox_png 4 (some ⟨6, 1, 1, 1, 0⟩) (some [0]) = (.ok .noData, false)
  ∧ (lerc_to_mapbox_png_c 4 (some ⟨6, 1, 1, 1, 0⟩) (some [0])).2 = true :=
  C3_lerc_novalid 4 ⟨6, 1, 1, 1, 0⟩ (some [0]) (by norm_num) (by norm_num)
    (by norm_num) (by norm_num) (by norm_num) (by norm_num)

/-- C3 counterexample: as stated the claim is false — at an all-masked blob
the C entry point does not return the no-data result and does call the
decompressor: it decodes and produces a full raster. -/
theorem C3_lerc_novalid_counterexample :
    (lerc_to_mapbox_png_c 4 (some ⟨6, 1, 1, 1, 0⟩) (some [0])).1
        = .ok (.png 1 1 [1, 134, 160])
  ∧ (lerc_to_mapbox_png_c 4 (some ⟨6, 1, 1, 1, 0⟩) (some [0])).2 = true := by
  constructor <;> with_unfolding_all rfl

/-- C5: when the decoded container dimensions are both at most the (valid)
target size, `downsample_png` returns the exact input container bytes with
no recompute of the raster, for every valid scheme and method. -/
theorem C5_downsample_noop (d : List ℕ) (t : ℤ) (enc ms : String)
    (m : DownsampleMethod) (w h : ℕ) (src : List ℕ)
    (hd : d ≠ []) (ht1 : 0 < t) (ht2 : t ≤ 1024)
    (henc : enc = "mapbox" ∨ enc = "terrarium")
    (hm : parse_method ms = some m)
    (hw : w ≤ t.toNat) (hh : h ≤ t.toNat) :
    downsample_png d t enc ms (some (w, h, src)) = (.ok (.original d), true) :=
  downsample_png_fast_run d t enc ms m w h src hd ht1 ht2 henc hm hw hh

/-- C5 witness: a 1×1 source with target size 2 passes through untouched for
each of the six scheme/method pairs. -/
theorem C5_downsample_noop_witness :
    downsample_png [1, 2, 3] 2 "mapbox" "nearest" (some (1, 1, [7, 8, 9]))
        = (.ok (.original [1, 2, 3]), true)
  ∧ downsample_png [1, 2, 3] 2 "terrarium" "average" (some (1, 1, [7, 8, 9]))
        = (.ok (.original [1, 2, 3]), true)
  ∧ downsample_png [1, 2, 3] 2 "mapbox" "maximum" (some (2, 2, [7, 8, 9]))
        = (.ok (.original [1, 2, 3]), true) :=
  ⟨C5_downsample_noop [1, 2, 3] 2 "mapbox" "nearest" .Nearest 1 1 [7, 8, 9]
      (by simp) (by norm_num) (by norm_num) (Or.inl rfl) rfl (by norm_num) (by norm_num),
   C5_downsample_noop [1, 2, 3] 2 "terrarium" "average" .Average 1 1 [7, 8, 9]
      (by simp) (by norm_num) (by norm_num) (Or.inr rfl) rfl (by norm_num) (by norm_num),
   C5_downsample_noop [1, 2, 3] 2 "mapbox" "maximum" .Maximum 2 2 [7, 8, 9]
      (by simp) (by norm_num) (by norm_num) (Or.inl rfl) rfl (by norm_num) (by norm_num)⟩

/-- The in-bounds property claim C4 asserts of the Average/Maximum 2×2 block
reads: for every output pixel of a `target_size`-sized output, all four
byte-triple reads (three bytes each) fall inside the `w*h*3`-byte source
buffer, with the source sample at
`(out_x*(w/target_size), out_y*(w/target_size))`. -/
def downsample_reads_in_bounds (w h tsize : ℕ) : Prop :=
  ∀ ox oy, ox < tsize → oy < tsize →
    ∀ i ∈ downsample_read_offsets w (ox * (w / tsize)) (oy * (w / tsize)), i + 2 < w * h * 3

/-- C4 counterexample: a 2×1 source with target size 1 is on the downsample
path (width exceeds the target), yet the 2×2 block read at output pixel
(0,0) touches byte offsets 6..8 of the 6-byte source buffer. -/
theorem C4_reads_counterexample :
    ¬ (2 ≤ 1 ∧ 1 ≤ 1) ∧ ¬ downsample_reads_in_bounds 2 1 1 := by
  constructor
  · omega
  · intro hall
    have h6 : (6 : ℕ) ∈ downsample_read_offsets 2 (0 * (2 / 1)) (0 * (2 / 1)) := by
      norm_num [downsample_read_offsets]
    have := hall 0 0 (by norm_num) (by norm_num) 6 h6
    omega

/-- C4 (amended): for a *square* source raster larger than the (positive)
target size — the shape every tile on this service has — all four 2×2 block
byte-triple reads of the Average and Maximum methods stay inside the
`w*h*3`-byte source buffer for every output pixel. For non-square sources the
property fails (see the counterexample): `scale_factor` is computed from the
width alone. -/
theorem C4_reads_in_bounds_square (w tsize : ℕ) (ht : 0 < tsize) (hwt : tsize < w) :
    downsample_reads_in_bounds w w tsize := by
  intro ox oy hox hoy i hi
  set s := w / tsize with hs_def
  have hs1 : 1 ≤ s := (Nat.one_le_div_iff ht).mpr (le_of_lt hwt)
  have hst : tsize * s ≤ w := by
    rw [Nat.mul_comm]
    exact Nat.div_mul_le_self w tsize
  have key : ∀ a, a < tsize → a * s + 2 ≤ w := by
    intro a ha
    rcases Nat.lt_or_ge s 2 with h2 | h2
    · have hs : s = 1 := by omega
      rw [hs]
      omega
    · have h3 : (a + 1) * s ≤ tsize * s := Nat.mul_le_mul_right s (by omega)
      have h4 : a * s + s ≤ w := by
        have : (a + 1) * s = a * s + s := by ring
        omega
      omega
  have hx := key ox hox
  have hy := key oy hoy
  simp only [downsample_read_offsets, List.mem_cons, List.not_mem_nil, or_false] at hi
  rcases hi with h | h | h | h <;> subst h <;> nlinarith

/-- C4 witness: a 4×4 source downsampled to 2×2 keeps every 2×2 block read
inside the 48-byte buffer. -/
theorem C4_reads_in_bounds_square_witness :
    (0 < 2 ∧ 2 < 4) ∧ downsample_reads_in_bounds 4 4 2 :=
  ⟨⟨by norm_num, by norm_num⟩, C4_reads_in_bounds_square 4 2 (by norm_num) (by norm_num)⟩

/-- C6: under the `"nearest"` method, on the downsample path, every output
three bytes of each pixel equal byte-for-byte the three source bytes at
`(out_x*scale_factor, out_y*scale_factor)` with
`scale_factor = source_width / target_size` in integer division — no
decode/encode round trip. -/
theorem C6_nearest_byte_identity (d : List ℕ) (t : ℤ) (enc : String)
    (w h : ℕ) (src : List ℕ) (ox oy : ℕ)
    (hd : d ≠ []) (ht1 : 0 < t) (ht2 : t ≤ 1024)
    (henc : enc = "mapbox" ∨ enc = "terrarium")
    (hfast : ¬ (w ≤ t.toNat ∧ h ≤ t.toNat))
    (hox : ox < t.toNat) (hoy : oy < t.toNat)
    (hin : ((oy * (w / t.toNat)) * w + ox * (w / t.toNat)) * 3 + 2 < src.length) :
    dsByte (downsample_png d t enc "nearest" (some (w, h, src)))
        ((oy * t.toNat + ox) * 3)
      = px src (((oy * (w / t.toNat)) * w + ox * (w / t.toNat)) * 3)
  ∧ dsByte (downsample_png d t enc "nearest" (some (w, h, src)))
        ((oy * t.toNat + ox) * 3 + 1)
      = px src (((oy * (w / t.toNat)) * w + ox * (w / t.toNat)) * 3 + 1)
  ∧ dsByte (downsample_png d t enc "nearest" (some (w, h, src)))
        ((oy * t.toNat + ox) * 3 + 2)
      = px src (((oy * (w / t.toNat)) * w + ox * (w / t.toNat)) * 3 + 2) := by
  rw [downsample_png_resample_run d t enc "nearest" .Nearest w h src hd ht1 ht2 henc
    parse_method_nearest hfast]
  have hbyte : ∀ c, c < 3 →
      dsByte (.ok (.resampled t.toNat t.toNat
          (downsample_core src w (w / t.toNat) t.toNat (decide (enc = "terrarium"))
            .Nearest)), true) ((oy * t.toNat + ox) * 3 + c)
        = (pixelBytes (downsample_nearest src w (ox * (w / t.toNat))
            (oy * (w / t.toNat)))).getD c 0 := by
    intro c hc
    show (downsample_core src w (w / t.toNat) t.toNat (decide (enc = "terrarium"))
        .Nearest).getD ((oy * t.toNat + ox) * 3 + c) 0 = _
    rw [downsample_core_getD src w (w / t.toNat) t.toNat _ .Nearest ox oy c hox hoy hc]
    rfl
  refine ⟨?_, hbyte 1 (by norm_num), hbyte 2 (by norm_num)⟩
  have h0 := hbyte 0 (by norm_num)
  rw [Nat.add_zero] at h0
  exact h0

/-- C6 witness: the specification 4×4 → 2×2 scenario with `scale_factor = 2`; output
pixel (1,1) copies the source bytes at pixel (2,2), i.e. offsets 30..32. -/
theorem C6_nearest_byte_identity_witness :
    dsByte (downsample_png [9] 2 "mapbox" "nearest" (some (4, 4, List.range 48)))
        ((1 * 2 + 1) * 3) = px (List.range 48) (((1 * (4 / 2)) * 4 + 1 * (4 / 2)) * 3)
  ∧ dsByte (downsample_png [9] 2 "mapbox" "nearest" (some (4, 4, List.range 48)))
        ((1 * 2 + 1) * 3 + 1)
      = px (List.range 48) (((1 * (4 / 2)) * 4 + 1 * (4 / 2)) * 3 + 1)
  ∧ dsByte (downsample_png [9] 2 "mapbox" "nearest" (some (4, 4, List.range 48)))
        ((1 * 2 + 1) * 3 + 2)
      = px (List.range 48) (((1 * (4 / 2)) * 4 + 1 * (4 / 2)) * 3 + 2) := by
  have h := C6_nearest_byte_identity [9] 2 "mapbox" 4 4 (List.range 48) 1 1
    (by simp) (by norm_num) (by norm_num) (Or.inl rfl) (by norm_num)
    (by norm_num) (by norm_num) (by simp)
  exact h

/-- C10: every raster the core produces has byte length width*height*3: on
the downsample path the output raster is exactly `target_size*target_size*3`
bytes regardless of method, and the raster both LERC pipelines hand to the
container encoder is exactly `tw*th*3` bytes for their output dimensions. -/
theorem C10_raster_shapes :
    (∀ (d : List ℕ) (t : ℤ) (enc ms : String) (m : DownsampleMethod)
        (w h : ℕ) (src : List ℕ),
      d ≠ [] → 0 < t → t ≤ 1024 → (enc = "mapbox" ∨ enc = "terrarium") →
      parse_method ms = some m → ¬ (w ≤ t.toNat ∧ h ≤ t.toNat) →
      dsIsResampled (downsample_png d t enc ms (some (w, h, src))) = true
      ∧ dsLen (downsample_png d t enc ms (some (w, h, src))) = t.toNat * t.toNat * 3)
  ∧ (∀ (n : ℕ) (info : BlobInfo) (elev : List ℚ),
      n ≠ 0 → 0 < info.nCols → 0 < info.nRows → 0 < info.nBands →
      info.dataType = 6 → 0 < info.nValidPixels →
      lercLen (lerc_to_mapbox_png n (some info) (some elev))
        = lercW (lerc_to_mapbox_png n (some info) (some elev))
          * lercH (lerc_to_mapbox_png n (some info) (some elev)) * 3
      ∧ lercLen (lerc_to_mapbox_png_c n (some info) (some elev))
        = lercW (lerc_to_mapbox_png_c n (some info) (some elev))
          * lercH (lerc_to_mapbox_png_c n (some info) (some elev)) * 3) := by
  constructor
  · intro d t enc ms m w h src hd ht1 ht2 henc hm hfast
    rw [downsample_png_resample_run d t enc ms m w h src hd ht1 ht2 henc hm hfast]
    refine ⟨rfl, ?_⟩
    show (downsample_core src w (w / t.toNat) t.toNat (decide (enc = "terrarium"))
        m).length = t.toNat * t.toNat * 3
    exact downsample_core_length src w (w / t.toNat) t.toNat _ m
  · intro n info elev hn hc hr hb hT hv
    constructor
    · rw [lerc_cpp_run n info elev hn hc hr hb hT hv]
      show (lerc_rgb elev info.nCols.toNat _ _).length = _
      rw [lerc_rgb_length]
      rfl
    · rw [lerc_c_run n info elev hn hc hr hb hT]
      show (lerc_rgb elev info.nCols.toNat _ _).length = _
      rw [lerc_rgb_length]
      rfl

/-- C10 witness: a 2×2 source downsampled to 1×1 yields 3 bytes; a 2×2 LERC
decode yields a 2*2*3-byte raster through both pipelines. -/
theorem C10_raster_shapes_witness :
    (dsIsResampled (downsample_png [9] 1 "mapbox" "average"
        (some (2, 2, [0, 0, 0, 0, 0, 1, 0, 0, 2, 0, 0, 3]))) = true
     ∧ dsLen (downsample_png [9] 1 "mapbox" "average"
        (some (2, 2, [0, 0, 0, 0, 0, 1, 0, 0, 2, 0, 0, 3])))
       = (1 : ℤ).toNat * (1 : ℤ).toNat * 3)
  ∧ (lercLen (lerc_to_mapbox_png 4 (some ⟨6, 2, 2, 1, 4⟩) (some [0, 1, 2, 3]))
       = lercW (lerc_to_mapbox_png 4 (some ⟨6, 2, 2, 1, 4⟩) (some [0, 1, 2, 3]))
         * lercH (lerc_to_mapbox_png 4 (some ⟨6, 2, 2, 1, 4⟩) (some [0, 1, 2, 3])) * 3
     ∧ lercLen (lerc_to_mapbox_png_c 4 (some ⟨6, 2, 2, 1, 4⟩) (some [0, 1, 2, 3]))
       = lercW (lerc_to_mapbox_png_c 4 (some ⟨6, 2, 2, 1, 4⟩) (some [0, 1, 2, 3]))
         * lercH (lerc_to_mapbox_png_c 4 (some ⟨6, 2, 2, 1, 4⟩) (some [0, 1, 2, 3])) * 3) :=
  ⟨C10_raster_shapes.1 [9] 1 "mapbox" "average" .Average 2 2
      [0, 0, 0, 0, 0, 1, 0, 0, 2, 0, 0, 3] (by simp) (by norm_num) (by norm_num)
      (Or.inl rfl) rfl (by norm_num),
   C10_raster_shapes.2 4 ⟨6, 2, 2, 1, 4⟩ [0, 1, 2, 3] (by norm_num) (by norm_num)
      (by norm_num) (by norm_num) (by norm_num) (by norm_num)⟩

/-- C7: on a successful pipeline run the emitted raster is 256 wide when the
decode had exactly 257 columns (and 256 tall for 257 rows), all other
dimensions passing through uncropped, and every output pixel `(x, y)`
carries the pipeline encoding of the decoded elevation at grid position
`(x, y)` — the row stride stays the source column count, so the last
column/row is what gets dropped.  Holds for both pipeline entry points. -/
theorem C7_crop_257 (n : ℕ) (info : BlobInfo) (elev : List ℚ)
    (hn : n ≠ 0) (hc : 0 < info.nCols) (hr : 0 < info.nRows) (hb : 0 < info.nBands)
    (hT : info.dataType = 6) (hv : 0 < info.nValidPixels) :
    lercW (lerc_to_mapbox_png n (some info) (some elev))
        = (if info.nCols = 257 then 256 else info.nCols).toNat
  ∧ lercH (lerc_to_mapbox_png n (some info) (some elev))
        = (if info.nRows = 257 then 256 else info.nRows).toNat
  ∧ lercW (lerc_to_mapbox_png_c n (some info) (some elev))
        = (if info.nCols = 257 then 256 else info.nCols).toNat
  ∧ lercH (lerc_to_mapbox_png_c n (some info) (some elev))
        = (if info.nRows = 257 then 256 else info.nRows).toNat
  ∧ ∀ x y c, x < (if info.nCols = 257 then 256 else info.nCols).toNat →
      y < (if info.nRows = 257 then 256 else info.nRows).toNat → c < 3 →
      lercByte (lerc_to_mapbox_png n (some info) (some elev))
          ((y * (if info.nCols = 257 then 256 else info.nCols).toNat + x) * 3 + c)
        = (mapbox_trunc_bytes (elev.getD (y * info.nCols.toNat + x) 0)).getD c 0
      ∧ lercByte (lerc_to_mapbox_png_c n (some info) (some elev))
          ((y * (if info.nCols = 257 then 256 else info.nCols).toNat + x) * 3 + c)
        = (mapbox_trunc_bytes (elev.getD (y * info.nCols.toNat + x) 0)).getD c 0 := by
  rw [lerc_cpp_run n info elev hn hc hr hb hT hv, lerc_c_run n info elev hn hc hr hb hT]
  refine ⟨rfl, rfl, rfl, rfl, ?_⟩
  intro x y c hx hy hc3
  constructor
  · show (lerc_rgb elev info.nCols.toNat _ _).getD _ 0 = _
    exact lerc_rgb_getD elev info.nCols.toNat _ _ x y c hx hy hc3
  · show (lerc_rgb elev info.nCols.toNat _ _).getD _ 0 = _
    exact lerc_rgb_getD elev info.nCols.toNat _ _ x y c hx hy hc3

/-- C7 witness: a 257×1 decode is emitted as 256×1 by both pipelines, and
output pixel (3,0) encodes the decoded elevation at grid position (3,0). -/
theorem C7_crop_257_witness :
    lercW (lerc_to_mapbox_png 9 (some ⟨6, 257, 1, 1, 5⟩)
        (some (List.replicate 257 0))) = 256
  ∧ lercH (lerc_to_mapbox_png 9 (some ⟨6, 257, 1, 1, 5⟩)
        (some (List.replicate 257 0))) = 1
  ∧ lercW (lerc_to_mapbox_png_c 9 (some ⟨6, 257, 1, 1, 5⟩)
        (some (List.replicate 257 0))) = 256
  ∧ lercH (lerc_to_mapbox_png_c 9 (some ⟨6, 257, 1, 1, 5⟩)
        (some (List.replicate 257 0))) = 1
  ∧ lercByte (lerc_to_mapbox_png 9 (some ⟨6, 257, 1, 1, 5⟩)
        (some (List.replicate 257 0))) ((0 * 256 + 3) * 3 + 2)
      = (mapbox_trunc_bytes ((List.replicate 257 (0 : ℚ)).getD 3 0)).getD 2 0
  ∧ lercByte (lerc_to_mapbox_png_c 9 (some ⟨6, 257, 1, 1, 5⟩)
        (some (List.replicate 257 0))) ((0 * 256 + 3) * 3 + 2)
      = (mapbox_trunc_bytes ((List.replicate 257 (0 : ℚ)).getD 3 0)).getD 2 0 := by
  have h := C7_crop_257 9 ⟨6, 257, 1, 1, 5⟩ (List.replicate 257 0) (by norm_num)
    (by norm_num) (by norm_num) (by norm_num) (by norm_num) (by norm_num)
  obtain ⟨h1, h2, h3, h4, h5⟩ := h
  have h6 := h5 3 0 2 (by norm_num) (by norm_num) (by norm_num)
  exact ⟨h1.trans (by decide), h2.trans (by decide), h3.trans (by decide),
    h4.trans (by decide), h6.1, h6.2⟩

theorem cclamp_of_ge (v hi : ℤ) (h : hi ≤ v) (h0 : 0 ≤ hi) : cclamp v 0 hi = hi := by
  unfold cclamp; split_ifs <;> omega

theorem cclamp_add_one_le (v hi : ℤ) (h0 : 0 ≤ hi) :
    cclamp (v + 1) 0 hi ≤ cclamp v 0 hi + 1 := by
  unfold cclamp; split_ifs <;> omega

theorem round_nonpos_of_neg (x : ℚ) (h : x < 0) : round x ≤ 0 := by
  rw [round_eq]
  have h1 : ⌊x + 1/2⌋ < 1 := Int.floor_lt.mpr (by push_cast; linarith)
  omega

theorem ctrunc_le_round (x : ℚ) (h : 0 ≤ x) : ctrunc x ≤ round x := by
  unfold ctrunc
  rw [if_pos h, round_eq]
  exact Int.floor_le_floor (by linarith)

theorem round_le_ctrunc_add_one (x : ℚ) (h : 0 ≤ x) : round x ≤ ctrunc x + 1 := by
  unfold ctrunc
  rw [if_pos h, round_eq]
  have h1 : ⌊x + 1/2⌋ ≤ ⌊x + 1⌋ := Int.floor_le_floor (by linarith)
  rw [show x + 1 = x + (1 : ℤ) by push_cast; ring, Int.floor_add_int] at h1
  exact h1

/-- C1 (amended): the standalone codec `encode_mapbox_terrain_rgb` realises
exactly the specified formula `round((e+10000.0)/0.1)` clamped to
`[0, 16777215]` and packed big-endian; the two `lerc_to_mapbox_png` pipeline
encoders use the same clamp and packing but *truncate* the quotient toward
zero instead of rounding it, so their 24-bit code sits within one unit below
the specified one; at every Mapbox-encode site elevations at or below
-10000 saturate to (0,0,0) and elevations at or above the 24-bit ceiling
saturate to (255,255,255), never wrapping. -/
theorem C1_mapbox_encode_sites (e : ℚ) :
    encode_mapbox_terrain_rgb e = spec_mapbox_encode e
  ∧ (mapboxCode (encode_mapbox_terrain_rgb e) : ℤ)
      = cclamp (cround ((e + 10000) / (1/10))) 0 16777215
  ∧ (mapboxCode (encode_mapbox_trunc e) : ℤ)
      = cclamp (ctrunc ((e + 10000) / (1/10))) 0 16777215
  ∧ mapboxCode (encode_mapbox_trunc e) ≤ mapboxCode (spec_mapbox_encode e)
  ∧ mapboxCode (spec_mapbox_encode e) ≤ mapboxCode (encode_mapbox_trunc e) + 1
  ∧ (e ≤ -10000 →
      encode_mapbox_terrain_rgb e = (0, 0, 0) ∧ encode_mapbox_trunc e = (0, 0, 0))
  ∧ (16777215 / 10 - 10000 ≤ e →
      encode_mapbox_terrain_rgb e = (255, 255, 255)
      ∧ encode_mapbox_trunc e = (255, 255, 255)) := by
  set x : ℚ := (e + 10000) / (1/10) with hx_def
  have hx_mul : x = (e + 10000) * 10 := by
    rw [hx_def, div_eq_mul_inv, one_div, inv_inv]
  have hM : (0:ℤ) ≤ 16777215 := by norm_num
  have hcode : ∀ v : ℤ, (mapboxCode (pack24 (cclamp v 0 16777215)) : ℤ)
      = cclamp v 0 16777215 := by
    intro v
    have h1 := cclamp_nonneg v 16777215 hM
    have h2 := cclamp_le v 16777215 hM
    have h3 := mapboxCode_pack24 (cclamp v 0 16777215) h1 (by omega)
    omega
  have hspec_eq : encode_mapbox_terrain_rgb e = spec_mapbox_encode e := by
    unfold encode_mapbox_terrain_rgb spec_mapbox_encode
    rcases le_or_lt 0 x with h | h
    · unfold cround
      rw [if_pos h, ← round_eq]
    · rw [cclamp_of_nonpos _ _ (cround_nonpos x (le_of_lt h)) hM,
        cclamp_of_nonpos _ _ (round_nonpos_of_neg x h) hM]
  refine ⟨hspec_eq, hcode (cround x), hcode (ctrunc x), ?_, ?_, ?_, ?_⟩
  · have h1 := hcode (ctrunc x)
    have h2 := hcode (round x)
    have h3 : cclamp (ctrunc x) 0 16777215 ≤ cclamp (round x) 0 16777215 := by
      rcases le_or_lt 0 x with h | h
      · exact cclamp_mono _ _ _ hM (ctrunc_le_round x h)
      · rw [cclamp_of_nonpos _ _ (ctrunc_nonpos x (le_of_lt h)) hM,
          cclamp_of_nonpos _ _ (round_nonpos_of_neg x h) hM]
    unfold spec_mapbox_encode encode_mapbox_trunc
    rw [← hx_def]
    omega
  · have h1 := hcode (ctrunc x)
    have h2 := hcode (round x)
    have h3 : cclamp (round x) 0 16777215 ≤ cclamp (ctrunc x) 0 16777215 + 1 := by
      rcases le_or_lt 0 x with h | h
      · calc cclamp (round x) 0 16777215
            ≤ cclamp (ctrunc x + 1) 0 16777215 :=
              cclamp_mono _ _ _ hM (round_le_ctrunc_add_one x h)
          _ ≤ cclamp (ctrunc x) 0 16777215 + 1 := cclamp_add_one_le _ _ hM
      · rw [cclamp_of_nonpos _ _ (ctrunc_nonpos x (le_of_lt h)) hM,
          cclamp_of_nonpos _ _ (round_nonpos_of_neg x h) hM]
        omega
    unfold spec_mapbox_encode encode_mapbox_trunc
    rw [← hx_def]
    omega
  · intro he
    have hx0 : x ≤ 0 := by
      rw [hx_mul]
      nlinarith
    constructor
    · unfold encode_mapbox_terrain_rgb
      rw [cclamp_of_nonpos _ _ (cround_nonpos x hx0) hM]
      rfl
    · unfold encode_mapbox_trunc
      rw [cclamp_of_nonpos _ _ (ctrunc_nonpos x hx0) hM]
      rfl
  · intro he
    have hxM : (16777215 : ℚ) ≤ x := by
      rw [hx_mul]
      nlinarith
    have hx0 : (0:ℚ) ≤ x := by linarith
    have htr : (16777215 : ℤ) ≤ ctrunc x :=
      ctrunc_le_of_le x 16777215 hx0 (by push_cast; linarith)
    have hrd : (16777215 : ℤ) ≤ cround x := by
      unfold cround
      rw [if_pos hx0]
      exact Int.le_floor.mpr (by push_cast; linarith)
    constructor
    · unfold encode_mapbox_terrain_rgb
      rw [cclamp_of_ge _ _ hrd hM]
      rfl
    · unfold encode_mapbox_trunc
      rw [cclamp_of_ge _ _ htr hM]
      rfl

/-- C1 witness: saturation at -20000 and 2000000 at all encode sites. -/
theorem C1_mapbox_encode_sites_witness :
    (encode_mapbox_terrain_rgb (-20000) = (0, 0, 0)
      ∧ encode_mapbox_trunc (-20000) = (0, 0, 0))
  ∧ (encode_mapbox_terrain_rgb 2000000 = (255, 255, 255)
      ∧ encode_mapbox_trunc 2000000 = (255, 255, 255)) :=
  ⟨(C1_mapbox_encode_sites (-20000)).2.2.2.2.2.1 (by norm_num),
   (C1_mapbox_encode_sites 2000000).2.2.2.2.2.2 (by norm_num)⟩

/-- C1 counterexample: at elevation 0.06 the exact quotient is 100000.6, so
the claimed rounding formula gives byte triple (1,134,161) — which the
standalone codec indeed produces — but both pipeline encoders truncate and
produce (1,134,160). -/
theorem C1_mapbox_encode_sites_counterexample :
    encode_mapbox_trunc (3/50) ≠ spec_mapbox_encode (3/50)
  ∧ encode_mapbox_trunc (3/50) = (1, 134, 160)
  ∧ spec_mapbox_encode (3/50) = (1, 134, 161)
  ∧ encode_mapbox_terrain_rgb (3/50) = (1, 134, 161) := by
  refine ⟨?_, ?_, ?_, ?_⟩ <;> with_unfolding_all decide

theorem decode_mapbox_pack24 (code : ℤ) (h0 : 0 ≤ code) (h1 : code < 16777216) :
    decode_mapbox_terrain_rgb (pack24 code).1 (pack24 code).2.1 (pack24 code).2.2
      = -10000 + (code : ℚ) * (1/10) := by
  have hrec := mapboxCode_pack24 code h0 h1
  unfold mapboxCode at hrec
  unfold decode_mapbox_terrain_rgb
  have hcast : ((pack24 code).1 : ℚ) * 65536 + ((pack24 code).2.1 : ℚ) * 256
      + ((pack24 code).2.2 : ℚ) = (code : ℚ) := by
    have h2 : ((pack24 code).1 : ℤ) * 65536 + ((pack24 code).2.1 : ℤ) * 256
        + ((pack24 code).2.2 : ℤ) = code := by omega
    exact_mod_cast h2
  have h65536 : ((pack24 code).1 : ℚ) * 256 * 256 = ((pack24 code).1 : ℚ) * 65536 := by
    ring
  rw [h65536]
  linarith

/-- C2 (amended): for every elevation in the Mapbox representable domain the
standalone codec round-trips within the 0.1 quantization step (in fact within
0.05), and for every elevation whose Terrarium integer part lies in the
16-bit range the Terrarium codec round-trips within 1/256 (in fact within
1/512) *provided* the fractional byte does not overflow, i.e.
`round(F*256) ≤ 255`; when the fractional part reaches 511/512 the blue byte
computes as 256 and wraps to 0 in the `uint8_t` conversion, making the error
approach a full metre (see the counterexample). -/
theorem C2_codec_roundtrip (e : ℚ) :
    (-10000 ≤ e → e ≤ 16777215 / 10 - 10000 →
      |decode_mapbox_terrain_rgb (encode_mapbox_terrain_rgb e).1
          (encode_mapbox_terrain_rgb e).2.1 (encode_mapbox_terrain_rgb e).2.2 - e|
        ≤ 1/10)
  ∧ (0 ≤ ⌊e + 32768⌋ → ⌊e + 32768⌋ ≤ 65535 →
      cround ((e + 32768 - (⌊e + 32768⌋ : ℚ)) * 256) ≤ 255 →
      |decode_terrarium (encode_terrarium e).1 (encode_terrarium e).2.1
          (encode_terrarium e).2.2 - e| ≤ 1/256) := by
  constructor
  · intro he1 he2
    set x : ℚ := (e + 10000) / (1/10) with hx_def
    have hx_mul : x = (e + 10000) * 10 := by
      rw [hx_def, div_eq_mul_inv, one_div, inv_inv]
    have h0x : 0 ≤ x := by rw [hx_mul]; nlinarith
    have hxM : x ≤ 16777215 := by rw [hx_mul]; nlinarith
    have hc0 : 0 ≤ cround x := cround_nonneg x h0x
    have hcM : cround x < 16777216 := by
      unfold cround
      rw [if_pos h0x]
      exact Int.floor_lt.mpr (by push_cast; linarith)
    have hclamp : cclamp (cround x) 0 16777215 = cround x :=
      cclamp_of_mem _ _ hc0 (by omega)
    have henc : encode_mapbox_terrain_rgb e = pack24 (cround x) := by
      unfold encode_mapbox_terrain_rgb
      rw [← hx_def, hclamp]
    rw [henc, decode_mapbox_pack24 (cround x) hc0 hcM]
    have hb := cround_bounds x
    have hex : e = -10000 + x * (1/10) := by rw [hx_mul]; ring
    rw [abs_le]
    constructor <;> [skip; skip] <;> rw [hex] <;> linarith [hb.1, hb.2]
  · intro hH0 hH1 hb255
    have hfl : ((⌊e + 32768⌋ : ℤ) : ℚ) ≤ e + 32768 := Int.floor_le _
    have hfu : e + 32768 < (⌊e + 32768⌋ : ℚ) + 1 := Int.lt_floor_add_one _
    set H : ℤ := ⌊e + 32768⌋ with hH_def
    set F : ℚ := e + 32768 - (H : ℚ) with hF_def
    have hF0 : 0 ≤ F := by rw [hF_def]; linarith
    have hb0 : 0 ≤ cround (F * 256) := cround_nonneg _ (by nlinarith)
    have henc : encode_terrarium e =
        (((H.fdiv 256).emod 256).toNat, (H.emod 256).toNat,
          ((cround (F * 256)).emod 256).toNat) := rfl
    have hfd : H.fdiv 256 = H / 256 := Int.fdiv_eq_ediv H (by norm_num)
    have hr_id : (H.fdiv 256).emod 256 = H / 256 := by
      rw [hfd]
      exact Int.emod_eq_of_lt (by omega) (by omega)
    have hg_id : H.emod 256 = H % 256 := rfl
    have hb_id : (cround (F * 256)).emod 256 = cround (F * 256) :=
      Int.emod_eq_of_lt hb0 (by omega)
    rw [henc]
    unfold decode_terrarium
    rw [hr_id, hg_id, hb_id]
    have hcast : (((H / 256).toNat : ℚ)) * 256 + (((H % 256).toNat : ℚ))
        = (H : ℚ) := by
      have h2 : ((H / 256).toNat : ℤ) * 256 + ((H % 256).toNat : ℤ) = H := by
        omega
      exact_mod_cast h2
    have hbcast : (((cround (F * 256)).toNat : ℚ)) = ((cround (F * 256) : ℤ) : ℚ) := by
      have h3 : ((cround (F * 256)).toNat : ℤ) = cround (F * 256) :=
        Int.toNat_of_nonneg hb0
      exact_mod_cast h3
    rw [hbcast]
    have hrb := cround_bounds (F * 256)
    have hex : e = (H : ℚ) + F - 32768 := by rw [hF_def]; ring
    rw [abs_le]
    constructor <;> rw [hex] <;> [skip; skip] <;> nlinarith [hrb.1, hrb.2, hcast]

/-- C2 witness: elevation 0 round-trips within quantization under both
schemes. -/
theorem C2_codec_roundtrip_witness :
    |decode_mapbox_terrain_rgb (encode_mapbox_terrain_rgb 0).1
        (encode_mapbox_terrain_rgb 0).2.1 (encode_mapbox_terrain_rgb 0).2.2 - 0| ≤ 1/10
  ∧ |decode_terrarium (encode_terrarium 0).1 (encode_terrarium 0).2.1
        (encode_terrarium 0).2.2 - 0| ≤ 1/256 :=
  ⟨(C2_codec_roundtrip 0).1 (by norm_num) (by norm_num),
   (C2_codec_roundtrip 0).2 (by norm_num) (by norm_num) (by norm_num [cround])⟩

/-- C2 counterexample: elevation -16383.001953125 (= -16383 - 1/512, exactly
representable in single precision) sits inside the Terrarium representable
domain, yet its fractional part is 511/512, so the blue byte computes as
round(511/512*256) = 256, wraps to 0 in the `uint8_t` conversion, and the
round-trip comes back as -16384: an error of 511/512, far beyond 1/256. -/
theorem C2_codec_roundtrip_counterexample :
    encode_terrarium (-16383 - 1/512) = (64, 0, 0)
  ∧ decode_terrarium 64 0 0 = -16384
  ∧ ¬ (|decode_terrarium (encode_terrarium (-16383 - 1/512)).1
        (encode_terrarium (-16383 - 1/512)).2.1
        (encode_terrarium (-16383 - 1/512)).2.2 - (-16383 - 1/512)| ≤ 1/256) := by
  have h1 : encode_terrarium (-16383 - 1/512) = (64, 0, 0) := by
    with_unfolding_all rfl
  refine ⟨h1, by with_unfolding_all rfl, ?_⟩
  rw [h1]
  with_unfolding_all decide
